import Mathlib

/-!
Verification development for the xHD-Wallet-API BIP32-Ed25519 hierarchical
deterministic wallet.  The derivation engine, signer and ECDH live outside the
published sources (only the README with its test vectors and a libsodium
re-export shim are available), so the operations are modelled from the
specification, with every deviation forced by the reference vectors recorded
in the corresponding doc comment.  Curve primitives are treated the way the
specification treats them - as an external provider - via the `EdOps`
structure; a faithful executable Ed25519 instance is supplied for concrete
evaluation, and the algebraic facts the proofs need are isolated in
`OpsFaithful`.
-/

set_option maxRecDepth 100000
set_option maxHeartbeats 1000000

deriving instance DecidableEq for Except

namespace XHD

/-- Little-endian byte serialisation: `leBytes w n` is the `w`-byte
little-endian encoding of `n % 256 ^ w`. -/
def leBytes : Nat → Nat → List Nat
  | 0, _ => []
  | w + 1, n => n % 256 :: leBytes w (n / 256)

/-- Little-endian byte deserialisation. -/
def toNatLE : List Nat → Nat
  | [] => 0
  | b :: bs => b % 256 + 256 * toNatLE bs

/-- Big-endian byte serialisation (used by the SHA length fields). -/
def beBytes (w n : Nat) : List Nat := (leBytes w n).reverse

/-- Big-endian byte deserialisation. -/
def toNatBE (l : List Nat) : Nat := toNatLE l.reverse

theorem leBytes_length (w n : Nat) : (leBytes w n).length = w := by
  induction w generalizing n with
  | zero => rfl
  | succ w ih => simp [leBytes, ih]

theorem toNatLE_leBytes (w n : Nat) : toNatLE (leBytes w n) = n % 256 ^ w := by
  induction w generalizing n with
  | zero => simp [leBytes, toNatLE, Nat.mod_one]
  | succ w ih =>
      have hpow : (256 : Nat) ^ (w + 1) = 256 * 256 ^ w := by ring
      simp only [leBytes, toNatLE, ih, hpow, Nat.mod_mul,
        Nat.mod_mod_of_dvd _ (dvd_refl 256)]

/-- Split a list into chunks of `n` bytes, fuelled by the list length. -/
def chunkAux (n : Nat) : Nat → List Nat → List (List Nat)
  | 0, _ => []
  | fuel + 1, l => if l.isEmpty then [] else l.take n :: chunkAux n fuel (l.drop n)

/-- Split a byte list into chunks of `n` bytes (the last one possibly short). -/
def chunk (n : Nat) (l : List Nat) : List (List Nat) := chunkAux n l.length l

/-! ### SHA-512 and SHA-256 (FIPS 180-4) -/

/-- `2 ^ 64`. -/
def M64 : Nat := 18446744073709551616

/-- `2 ^ 32`. -/
def M32 : Nat := 4294967296

/-- 64-bit right rotation. -/
def rotr64 (x r : Nat) : Nat := ((x >>> r) ||| (x <<< (64 - r))) % M64

/-- 32-bit right rotation. -/
def rotr32 (x r : Nat) : Nat := ((x >>> r) ||| (x <<< (32 - r))) % M32

def sha512K : List Nat := [4794697086780616226, 8158064640168781261, 13096744586834688815, 16840607885511220156, 4131703408338449720, 6480981068601479193, 10538285296894168987, 12329834152419229976, 15566598209576043074, 1334009975649890238, 2608012711638119052, 6128411473006802146, 8268148722764581231, 9286055187155687089, 11230858885718282805, 13951009754708518548, 16472876342353939154, 17275323862435702243, 1135362057144423861, 2597628984639134821, 3308224258029322869, 5365058923640841347, 6679025012923562964, 8573033837759648693, 10970295158949994411, 12119686244451234320, 12683024718118986047, 13788192230050041572, 14330467153632333762, 15395433587784984357, 489312712824947311, 1452737877330783856, 2861767655752347644, 3322285676063803686, 5560940570517711597, 5996557281743188959, 7280758554555802590, 8532644243296465576, 9350256976987008742, 10552545826968843579, 11727347734174303076, 12113106623233404929, 14000437183269869457, 14369950271660146224, 15101387698204529176, 15463397548674623760, 17586052441742319658, 1182934255886127544, 1847814050463011016, 2177327727835720531, 2830643537854262169, 3796741975233480872, 4115178125766777443, 5681478168544905931, 6601373596472566643, 7507060721942968483, 8399075790359081724, 8693463985226723168, 9568029438360202098, 10144078919501101548, 10430055236837252648, 11840083180663258601, 13761210420658862357, 14299343276471374635, 14566680578165727644, 15097957966210449927, 16922976911328602910, 17689382322260857208, 500013540394364858, 748580250866718886, 1242879168328830382, 1977374033974150939, 2944078676154940804, 3659926193048069267, 4368137639120453308, 4836135668995329356, 5532061633213252278, 6448918945643986474, 6902733635092675308, 7801388544844847127]

def sha512IV : List Nat := [7640891576956012808, 13503953896175478587, 4354685564936845355, 11912009170470909681, 5840696475078001361, 11170449401992604703, 2270897969802886507, 6620516959819538809]

def sha256K : List Nat := [1116352408, 1899447441, 3049323471, 3921009573, 961987163, 1508970993, 2453635748, 2870763221, 3624381080, 310598401, 607225278, 1426881987, 1925078388, 2162078206, 2614888103, 3248222580, 3835390401, 4022224774, 264347078, 604807628, 770255983, 1249150122, 1555081692, 1996064986, 2554220882, 2821834349, 2952996808, 3210313671, 3336571891, 3584528711, 113926993, 338241895, 666307205, 773529912, 1294757372, 1396182291, 1695183700, 1986661051, 2177026350, 2456956037, 2730485921, 2820302411, 3259730800, 3345764771, 3516065817, 3600352804, 4094571909, 275423344, 430227734, 506948616, 659060556, 883997877, 958139571, 1322822218, 1537002063, 1747873779, 1955562222, 2024104815, 2227730452, 2361852424, 2428436474, 2756734187, 3204031479, 3329325298]

def sha256IV : List Nat := [1779033703, 3144134277, 1013904242, 2773480762, 1359893119, 2600822924, 528734635, 1541459225]

/-- SHA-512 message-schedule extension, building the word list in reverse. -/
def sched512 : Nat → List Nat → List Nat
  | 0, acc => acc
  | fuel + 1, acc =>
      let w2 := acc.getD 1 0
      let w7 := acc.getD 6 0
      let w15 := acc.getD 14 0
      let w16 := acc.getD 15 0
      let s0 := rotr64 w15 1 ^^^ rotr64 w15 8 ^^^ (w15 >>> 7)
      let s1 := rotr64 w2 19 ^^^ rotr64 w2 61 ^^^ (w2 >>> 6)
      sched512 fuel (((s1 + w7 + s0 + w16) % M64) :: acc)

/-- One SHA-512 round step on the eight-word state. -/
def step512 (st : Nat × Nat × Nat × Nat × Nat × Nat × Nat × Nat) (kw : Nat × Nat) :
    Nat × Nat × Nat × Nat × Nat × Nat × Nat × Nat :=
  let (a, b, c, dd, e, f, g, h) := st
  let (k, w) := kw
  let S1 := rotr64 e 14 ^^^ rotr64 e 18 ^^^ rotr64 e 41
  let ch := (e &&& f) ^^^ ((e ^^^ (M64 - 1)) &&& g)
  let t1 := (h + S1 + ch + k + w) % M64
  let S0 := rotr64 a 28 ^^^ rotr64 a 34 ^^^ rotr64 a 39
  let mj := (a &&& b) ^^^ (a &&& c) ^^^ (b &&& c)
  let t2 := (S0 + mj) % M64
  ((t1 + t2) % M64, a, b, c, (dd + t1) % M64, e, f, g)

/-- SHA-512 compression of one 128-byte block. -/
def sha512Compress (hs : List Nat) (block : List Nat) : List Nat :=
  let w16 := (chunk 8 block).map toNatBE
  let ws := (sched512 64 w16.reverse).reverse
  let init := (hs.getD 0 0, hs.getD 1 0, hs.getD 2 0, hs.getD 3 0,
               hs.getD 4 0, hs.getD 5 0, hs.getD 6 0, hs.getD 7 0)
  let (a, b, c, dd, e, f, g, h) := (sha512K.zip ws).foldl step512 init
  [(hs.getD 0 0 + a) % M64, (hs.getD 1 0 + b) % M64, (hs.getD 2 0 + c) % M64,
   (hs.getD 3 0 + dd) % M64, (hs.getD 4 0 + e) % M64, (hs.getD 5 0 + f) % M64,
   (hs.getD 6 0 + g) % M64, (hs.getD 7 0 + h) % M64]

/-- SHA-512 of a byte list, as 64 bytes. -/
def sha512 (msg : List Nat) : List Nat :=
  let pad := msg ++ 128 :: List.replicate ((128 - (msg.length + 17) % 128) % 128) 0
    ++ beBytes 16 (8 * msg.length)
  (((chunk 128 pad).foldl sha512Compress sha512IV).map (beBytes 8)).flatten

/-- SHA-256 message-schedule extension, building the word list in reverse. -/
def sched256 : Nat → List Nat → List Nat
  | 0, acc => acc
  | fuel + 1, acc =>
      let w2 := acc.getD 1 0
      let w7 := acc.getD 6 0
      let w15 := acc.getD 14 0
      let w16 := acc.getD 15 0
      let s0 := rotr32 w15 7 ^^^ rotr32 w15 18 ^^^ (w15 >>> 3)
      let s1 := rotr32 w2 17 ^^^ rotr32 w2 19 ^^^ (w2 >>> 10)
      sched256 fuel (((s1 + w7 + s0 + w16) % M32) :: acc)

/-- One SHA-256 round step on the eight-word state. -/
def step256 (st : Nat × Nat × Nat × Nat × Nat × Nat × Nat × Nat) (kw : Nat × Nat) :
    Nat × Nat × Nat × Nat × Nat × Nat × Nat × Nat :=
  let (a, b, c, dd, e, f, g, h) := st
  let (k, w) := kw
  let S1 := rotr32 e 6 ^^^ rotr32 e 11 ^^^ rotr32 e 25
  let ch := (e &&& f) ^^^ ((e ^^^ (M32 - 1)) &&& g)
  let t1 := (h + S1 + ch + k + w) % M32
  let S0 := rotr32 a 2 ^^^ rotr32 a 13 ^^^ rotr32 a 22
  let mj := (a &&& b) ^^^ (a &&& c) ^^^ (b &&& c)
  let t2 := (S0 + mj) % M32
  ((t1 + t2) % M32, a, b, c, (dd + t1) % M32, e, f, g)

/-- SHA-256 compression of one 64-byte block. -/
def sha256Compress (hs : List Nat) (block : List Nat) : List Nat :=
  let w16 := (chunk 4 block).map toNatBE
  let ws := (sched256 48 w16.reverse).reverse
  let init := (hs.getD 0 0, hs.getD 1 0, hs.getD 2 0, hs.getD 3 0,
               hs.getD 4 0, hs.getD 5 0, hs.getD 6 0, hs.getD 7 0)
  let (a, b, c, dd, e, f, g, h) := (sha256K.zip ws).foldl step256 init
  [(hs.getD 0 0 + a) % M32, (hs.getD 1 0 + b) % M32, (hs.getD 2 0 + c) % M32,
   (hs.getD 3 0 + dd) % M32, (hs.getD 4 0 + e) % M32, (hs.getD 5 0 + f) % M32,
   (hs.getD 6 0 + g) % M32, (hs.getD 7 0 + h) % M32]

/-- SHA-256 of a byte list, as 32 bytes. -/
def sha256 (msg : List Nat) : List Nat :=
  let pad := msg ++ 128 :: List.replicate ((64 - (msg.length + 9) % 64) % 64) 0
    ++ beBytes 8 (8 * msg.length)
  (((chunk 64 pad).foldl sha256Compress sha256IV).map (beBytes 4)).flatten

/-! ### BLAKE2b (RFC 7693), with optional key and configurable digest size -/

def blakeSigma : List (List Nat) := [[0, 1, 2, 3, 4, 5, 6, 7, 8, 9, 10, 11, 12, 13, 14, 15], [14, 10, 4, 8, 9, 15, 13, 6, 1, 12, 0, 2, 11, 7, 5, 3], [11, 8, 12, 0, 5, 2, 15, 13, 10, 14, 3, 6, 7, 1, 9, 4], [7, 9, 3, 1, 13, 12, 11, 14, 2, 6, 5, 10, 4, 0, 15, 8], [9, 0, 5, 7, 2, 4, 10, 15, 14, 1, 11, 12, 6, 8, 3, 13], [2, 12, 6, 10, 0, 11, 8, 3, 4, 13, 7, 5, 15, 14, 1, 9], [12, 5, 1, 15, 14, 13, 4, 10, 0, 7, 6, 3, 9, 2, 8, 11], [13, 11, 7, 14, 12, 1, 3, 9, 5, 0, 15, 4, 8, 6, 2, 10], [6, 15, 14, 9, 11, 3, 0, 8, 12, 2, 13, 7, 1, 4, 10, 5], [10, 2, 8, 4, 7, 6, 1, 5, 15, 11, 9, 14, 3, 12, 13, 0]]

/-- The BLAKE2b mixing function G acting on the 16-word work vector. -/
def blakeG (v : List Nat) (a b c d x y : Nat) : List Nat :=
  let va := (v.getD a 0 + v.getD b 0 + x) % M64
  let vd := rotr64 (v.getD d 0 ^^^ va) 32
  let vc := (v.getD c 0 + vd) % M64
  let vb := rotr64 (v.getD b 0 ^^^ vc) 24
  let va2 := (va + vb + y) % M64
  let vd2 := rotr64 (vd ^^^ va2) 16
  let vc2 := (vc + vd2) % M64
  let vb2 := rotr64 (vb ^^^ vc2) 63
  (((v.set a va2).set b vb2).set c vc2).set d vd2

/-- One BLAKE2b round with message words `m` and permutation row `s`. -/
def blakeRound (m : List Nat) (v : List Nat) (s : List Nat) : List Nat :=
  let mi := fun i => m.getD (s.getD i 0) 0
  let v1 := blakeG v 0 4 8 12 (mi 0) (mi 1)
  let v2 := blakeG v1 1 5 9 13 (mi 2) (mi 3)
  let v3 := blakeG v2 2 6 10 14 (mi 4) (mi 5)
  let v4 := blakeG v3 3 7 11 15 (mi 6) (mi 7)
  let v5 := blakeG v4 0 5 10 15 (mi 8) (mi 9)
  let v6 := blakeG v5 1 6 11 12 (mi 10) (mi 11)
  let v7 := blakeG v6 2 7 8 13 (mi 12) (mi 13)
  blakeG v7 3 4 9 14 (mi 14) (mi 15)

/-- BLAKE2b compression of one 128-byte block at byte counter `t`. -/
def blakeCompress (h : List Nat) (block : List Nat) (t : Nat) (last : Bool) : List Nat :=
  let m := (chunk 8 block).map toNatLE
  let v0 := h ++ sha512IV
  let v1 := v0.set 12 (v0.getD 12 0 ^^^ t % M64)
  let v2 := if last then v1.set 14 (v1.getD 14 0 ^^^ (M64 - 1)) else v1
  let vf := (List.range 12).foldl (fun v r => blakeRound m v (blakeSigma.getD (r % 10) [])) v2
  [h.getD 0 0 ^^^ vf.getD 0 0 ^^^ vf.getD 8 0,
   h.getD 1 0 ^^^ vf.getD 1 0 ^^^ vf.getD 9 0,
   h.getD 2 0 ^^^ vf.getD 2 0 ^^^ vf.getD 10 0,
   h.getD 3 0 ^^^ vf.getD 3 0 ^^^ vf.getD 11 0,
   h.getD 4 0 ^^^ vf.getD 4 0 ^^^ vf.getD 12 0,
   h.getD 5 0 ^^^ vf.getD 5 0 ^^^ vf.getD 13 0,
   h.getD 6 0 ^^^ vf.getD 6 0 ^^^ vf.getD 14 0,
   h.getD 7 0 ^^^ vf.getD 7 0 ^^^ vf.getD 15 0]

/-- Outer BLAKE2b loop over the data blocks. -/
def blakeBlocks : Nat → List Nat → Nat → List Nat → List Nat
  | 0, h, _, _ => h
  | fuel + 1, h, done, rest =>
      if rest.length ≤ 128 then
        blakeCompress h (rest ++ List.replicate (128 - rest.length) 0)
          (done + rest.length) true
      else
        blakeBlocks fuel (blakeCompress h (rest.take 128) (done + 128) false)
          (done + 128) (rest.drop 128)

/-- BLAKE2b with digest length `outLen` (at most 64), optional `key`
(at most 64 bytes), over `msg`; the libsodium `crypto_generichash`. -/
def blake2b (outLen : Nat) (key msg : List Nat) : List Nat :=
  let h0 := sha512IV.set 0 (sha512IV.getD 0 0 ^^^ (16842752 + 256 * key.length + outLen))
  let data := (if key.isEmpty then [] else key ++ List.replicate (128 - key.length) 0) ++ msg
  (((blakeBlocks (data.length + 1) h0 0 data).map (leBytes 8)).flatten).take outLen

/-! ### Base64 decoding (RFC 4648, strict) -/

/-- Value of one base64 alphabet character, `none` for anything else. -/
def b64Val (c : Nat) : Option Nat :=
  if 65 ≤ c ∧ c ≤ 90 then some (c - 65)
  else if 97 ≤ c ∧ c ≤ 122 then some (c - 71)
  else if 48 ≤ c ∧ c ≤ 57 then some (c + 4)
  else if c = 43 then some 62
  else if c = 47 then some 63
  else none

/-- Decode base64 four characters at a time; `=` padding (byte 61) is legal
only at the very end. -/
def b64Groups : Nat → List Nat → Option (List Nat)
  | 0, l => if l.isEmpty then some [] else none
  | _ + 1, [] => some []
  | fuel + 1, a :: b :: c :: e :: rest => do
      let va ← b64Val a
      let vb ← b64Val b
      if c = 61 ∧ e = 61 ∧ rest = [] then
        some [va * 4 + vb / 16]
      else do
        let vc ← b64Val c
        if e = 61 ∧ rest = [] then
          some [va * 4 + vb / 16, vb % 16 * 16 + vc / 4]
        else do
          let vd ← b64Val e
          let tail ← b64Groups fuel rest
          some ((va * 4 + vb / 16) :: (vb % 16 * 16 + vc / 4) :: (vc % 4 * 64 + vd) :: tail)
  | _ + 1, _ => none

/-- Base64 decoding of a byte string; fails on non-alphabet characters,
misplaced padding or a length that is not a multiple of four. -/
def decodeBase64 (s : List Nat) : Option (List Nat) := b64Groups s.length s

end XHD


namespace Ed25519

/-- The field prime `2 ^ 255 - 19`. -/
def P : Nat := 57896044618658097711785492504343953926634992332820282019728792003956564819949

/-- The prime order of the base-point subgroup. -/
def L : Nat := 7237005577332262213973186563042994240857116359379907606001950938285454250989

/-- The twisted Edwards curve constant `d = -121665/121666`. -/
def d : Nat := 37095705934669439343138083508754565189542113879843219016388785533085940283555

/-- Points in extended homogeneous coordinates `(X, Y, Z, T)` with
`x = X/Z`, `y = Y/Z`, `x*y = T/Z`. -/
abbrev Pt := Nat × Nat × Nat × Nat

/-- The neutral element. -/
def zero : Pt := (0, 1, 1, 0)

/-- The standard base point. -/
def basePoint : Pt :=
  (15112221349535400772501151409588531511454012693041857206046113283949847762202,
   46316835694926478169428394003475163141307993866256225615783033603165251855960,
   1,
   46827403850823179245072216630277197565144205554125654976674165829533817101731)

/-- Complete point addition on the `a = -1` twisted Edwards curve
(extended coordinates, RFC 8032 formulas). -/
def padd (A B : Pt) : Pt :=
  let (x1, y1, z1, t1) := A
  let (x2, y2, z2, t2) := B
  let a := (y1 + P - x1) * (y2 + P - x2) % P
  let b := (y1 + x1) * (y2 + x2) % P
  let c := 2 * t1 % P * t2 % P * d % P
  let dd := 2 * z1 % P * z2 % P
  let e := (b + P - a) % P
  let f := (dd + P - c) % P
  let g := (dd + c) % P
  let h := (b + a) % P
  (e * f % P, g * h % P, f * g % P, e * h % P)

/-- Binary double-and-add loop for scalar multiplication, structural in the
fuel so the kernel can evaluate it. -/
def smulAux : Nat → Nat → Pt → Pt → Pt
  | 0, _, _, acc => acc
  | fuel + 1, s, q, acc =>
      let q2 := padd q q
      let acc2 := if s % 2 = 1 then padd acc q else acc
      -- Guard against a degenerate all-zero state.  Branching on the
      -- coordinates also forces them to numerals during kernel evaluation,
      -- which keeps the evaluation stack flat.
      if q2.1 + q2.2.1 + q2.2.2.1 + q2.2.2.2 + acc2.1 + acc2.2.1 + acc2.2.2.1 + acc2.2.2.2 = 0
      then acc2
      else smulAux fuel (s / 2) q2 acc2

/-- `smul s A = s · A`, processing all 256 bits of `s` without clamping,
like libsodium's `noclamp` scalar multiplication. -/
def smul (s : Nat) (A : Pt) : Pt := smulAux 256 s A zero

/-- `s · B` for the standard base point. -/
def smulBase (s : Nat) : Pt := smul s basePoint

/-- Modular exponentiation mod `P`, structural in the fuel. -/
def powP : Nat → Nat → Nat → Nat
  | 0, _, _ => 1
  | fuel + 1, b, e =>
      if e = 0 then 1
      else if b = 0 then 0
      else
        let r := powP fuel (b * b % P) (e / 2)
        if e % 2 = 1 then b * r % P else r

/-- Field inverse via Fermat. -/
def finv (x : Nat) : Nat := powP 256 x (P - 2)

/-- Point compression: 32 bytes, little-endian `y` with the parity of `x`
in the top bit. -/
def compress (A : Pt) : List Nat :=
  let (x, y, z, _) := A
  let zi := finv z
  let xa := x * zi % P
  let ya := y * zi % P
  XHD.leBytes 32 (ya + xa % 2 * 2 ^ 255)

end Ed25519

namespace Ed25519

/-- A square root of `-1` modulo `P`. -/
def sqrtM1 : Nat := 19681161376707505956807079304988542015446066515923890162744021073123829784752

/-- Square root modulo `P` (which is `5 mod 8`), when it exists. -/
def sqrtP (a : Nat) : Option Nat :=
  let x0 := powP 256 (a % P) ((P + 3) / 8)
  let x := if x0 * x0 % P = a % P then x0 else x0 * sqrtM1 % P
  if x * x % P = a % P then some x else none

/-- Point decompression per RFC 8032: recover `x` from `y` and the sign bit. -/
def decompress (b : List Nat) : Option Pt :=
  let n := XHD.toNatLE b
  let sign := n >>> 255 % 2
  let y := n % 2 ^ 255
  if P ≤ y then none
  else
    let y2 := y * y % P
    let x2 := (y2 + P - 1) % P * finv ((d * y2 + 1) % P) % P
    match sqrtP x2 with
    | none => none
    | some x0 =>
        if x0 = 0 ∧ sign = 1 then none
        else
          let x := if x0 % 2 = sign then x0 else (P - x0) % P
          some (x, y, 1, x * y % P)

end Ed25519

namespace XHD

/-! ### The curve-primitive provider -/

/-- The Ed25519 point operations the derivation engine consumes.  The
specification lists these as external collaborators (libsodium's
`crypto_scalarmult_ed25519_base_noclamp`, `crypto_core_ed25519_add`, scalar
multiplication of an arbitrary point, and point compression and
decompression), so the engine is parametric in the provider. -/
structure EdOps (Pt : Type) where
  smulBase : Nat → Pt
  add : Pt → Pt → Pt
  smul : Nat → Pt → Pt
  compress : Pt → List Nat
  decompress : List Nat → Option Pt

/-- The executable Ed25519 provider. -/
def realOps : EdOps Ed25519.Pt where
  smulBase := Ed25519.smulBase
  add := Ed25519.padd
  smul := Ed25519.smul
  compress := Ed25519.compress
  decompress := Ed25519.decompress

/-- A provider over `Nat` modulo the group order: it satisfies the same
algebraic contract as the real curve and keeps witness evaluations cheap. -/
def toyOps : EdOps Nat where
  smulBase n := n % Ed25519.L
  add a b := (a + b) % Ed25519.L
  smul n p := n * p % Ed25519.L
  compress p := leBytes 32 p
  decompress b := if toNatLE b < Ed25519.L then some (toNatLE b) else none

/-- The algebraic contract of a faithful curve provider: base-point
multiplication is additive and periodic modulo the group order `L`, scalar
multiplication of a base multiple multiplies the exponents, compression
produces 32 bytes, and decompression inverts compression on base
multiples. -/
structure OpsFaithful {Pt : Type} (ops : EdOps Pt) : Prop where
  addBase : ∀ a b, ops.smulBase (a + b) = ops.add (ops.smulBase a) (ops.smulBase b)
  mulBase : ∀ a b, ops.smul a (ops.smulBase b) = ops.smulBase (a * b)
  modBase : ∀ n, ops.smulBase (n % Ed25519.L) = ops.smulBase n
  roundtrip : ∀ n, ops.decompress (ops.compress (ops.smulBase n)) = some (ops.smulBase n)
  compressLen : ∀ p, (ops.compress p).length = 32

theorem toyOps_faithful : OpsFaithful toyOps where
  addBase a b := by simp [toyOps, Nat.add_mod]
  mulBase a b := by
    show a * (b % Ed25519.L) % Ed25519.L = a * b % Ed25519.L
    rw [Nat.mul_mod, Nat.mod_mod_of_dvd b (dvd_refl Ed25519.L), ← Nat.mul_mod]
  modBase n := by simp [toyOps, Nat.mod_mod]
  roundtrip n := by
    have hlt : n % Ed25519.L < Ed25519.L := Nat.mod_lt _ (by decide)
    have h : toNatLE (leBytes 32 (n % Ed25519.L)) = n % Ed25519.L := by
      rw [toNatLE_leBytes]
      exact Nat.mod_eq_of_lt (lt_trans hlt (by decide))
    simp [toyOps, h, hlt]
  compressLen p := leBytes_length 32 p

end XHD

namespace XHD

/-- The leaf secret scalar pinned in the repository README for the path
with purpose 44, coin type 283, account 0, change 0, index 0. -/
def leafKl : List Nat := [112, 152, 32, 73, 238, 234, 116, 60, 189, 65, 57, 252, 25, 139, 228, 242, 119, 236, 233, 145, 136, 190, 88, 52, 174, 179, 169, 122, 194, 197, 61, 90]

/-- The public key the README pins for `leafKl`. -/
def leafPk : List Nat := [138, 208, 187, 196, 35, 38, 172, 100, 235, 77, 187, 228, 10, 119, 81, 138, 127, 193, 211, 149, 4, 182, 24, 164, 220, 133, 240, 59, 58, 146, 26, 2]

/-- Sanity check of the executable Ed25519 instance against the repository
README: the pinned leaf secret scalar multiplied by the base point compresses
to the pinned public key. -/
theorem ed25519_vector_check :
    Ed25519.compress (Ed25519.smulBase (toNatLE leafKl)) = leafPk := by decide

end XHD

namespace XHD

/-! ### The wallet operations, modelled from the specification -/

/-- The error kinds of the specification (section 7). -/
inductive XHDErr where
  | UnusableSeed
  | HardPublicDerivationForbidden
  | DataIsTransactionLike
  | InvalidSchema
  | InvalidEncoding
  | WeakPoint
  | PrimitiveFailure
  deriving DecidableEq

/-- BIP44 key contexts: `Address` selects cointype 283, `Identity` cointype 0. -/
inductive KeyContext where
  | Address
  | Identity
  deriving DecidableEq

/-- Modelled from the spec: cointype selection (section 3, KeyContext). -/
def cointype : KeyContext → Nat
  | .Address => 283
  | .Identity => 0

/-- The two scalar-combination variants (section 3). -/
inductive BIP32DerivationType where
  | Khovratovich
  | Peikert
  deriving DecidableEq

/-- `harden n = n + 2 ^ 31` (section 3). -/
def harden (n : Nat) : Nat := n + 2147483648

/-- Modelled from the spec: `fromSeed` (section 4.1).  `k = SHA-512(seed)` is
split into kL and kR; if bit 5 of `kL[31]` is set the seed is unusable;
otherwise kL is clamped and the chaincode appended.  One deviation is forced
by the reference root vector in the README (part of the published sources):
the chaincode is `SHA-256(0x01 concat seed)`, not BLAKE2b-256 as section 4.1
step 4 states - the pinned root-key hex reproduces only with SHA-256. -/
def fromSeed (seed : List Nat) : Except XHDErr (List Nat) :=
  let k := sha512 seed
  let kL := k.take 32
  let kR := (k.drop 32).take 32
  if kL.getD 31 0 &&& 32 ≠ 0 then .error .UnusableSeed
  else
    let kLc := (kL.set 0 (kL.getD 0 0 &&& 248)).set 31 (kL.getD 31 0 &&& 127 ||| 64)
    .ok (kLc ++ kR ++ sha256 (1 :: seed))

/-- The clamp predicate of section 8: the low three bits of the first scalar
byte are clear and the top three bits of the last scalar byte are `010`. -/
def clamped (xsk : List Nat) : Bool :=
  xsk.getD 0 0 &&& 7 == 0 && xsk.getD 31 0 &&& 224 == 64

/-- Modelled from the spec: the soft-derivation PRF pair (section 4.2.1,
with `Z` first and the chaincode output second): keyed BLAKE2b-512 with the
parent chaincode as key over a one-byte domain tag, the parent public key
and the little-endian index. -/
def softPRF (cc pkb : List Nat) (index : Nat) : List Nat × List Nat :=
  (blake2b 64 cc (0 :: (pkb ++ leBytes 4 index)),
   blake2b 64 cc (1 :: (pkb ++ leBytes 4 index)))

/-- Modelled from the spec: the hardened-derivation PRF pair (section 4.2.1),
over the tag, kL, kR and the little-endian index. -/
def hardPRF (cc kL kR : List Nat) (index : Nat) : List Nat × List Nat :=
  (blake2b 64 cc (0 :: (kL ++ kR ++ leBytes 4 index)),
   blake2b 64 cc (1 :: (kL ++ kR ++ leBytes 4 index)))

/-- Modelled from the spec: the variant-dependent left-scalar material
(section 4.2.1).  Khovratovich keeps the low 28 bytes of zL and shifts left
by three bits; Peikert keeps more of zL before the shift - the spec defers
the exact retention to the reference implementation ("truncated/retained as
32 bytes per the reference"), which truncates zL to 247 bits before the
shift (this is also the arithmetic profile the sibling leaf vectors in the
README exhibit), so the Peikert value stays below `2 ^ 250`. -/
def zL8 (zl : List Nat) : BIP32DerivationType → Nat
  | .Khovratovich => toNatLE (zl.take 28) * 8
  | .Peikert => toNatLE zl % 226156424291633194186662080095093570025917938800079226639565593765455331328 * 8

/-- `pk = kL * B` in compressed form, for the secret scalar of an xsk. -/
def pkOf {Pt : Type} (ops : EdOps Pt) (xsk : List Nat) : List Nat :=
  ops.compress (ops.smulBase (toNatLE (xsk.take 32)))

/-- The extended public key `pk concat c` of an xsk (section 3). -/
def xpkOf {Pt : Type} (ops : EdOps Pt) (xsk : List Nat) : List Nat :=
  pkOf ops xsk ++ xsk.drop 64

/-- Modelled from the spec: `deriveChildNodePrivate` (section 4.2.1).  The
child left scalar is `kL + zL8` and the right scalar `kR + zR`, both as
little-endian additions mod `2 ^ 256`; the child chaincode is the right half
of the chaincode PRF output. -/
def deriveChildNodePrivate {Pt : Type} (ops : EdOps Pt) (xsk : List Nat)
    (index : Nat) (v : BIP32DerivationType) : List Nat :=
  let kL := xsk.take 32
  let kR := (xsk.drop 32).take 32
  let cc := xsk.drop 64
  let zc := if index < 2147483648 then softPRF cc (pkOf ops xsk) index
            else hardPRF cc kL kR index
  let zr := zc.1.drop 32
  let kLc := leBytes 32 ((toNatLE kL + zL8 (zc.1.take 32) v) % 2 ^ 256)
  let kRc := leBytes 32 ((toNatLE kR + toNatLE zr) % 2 ^ 256)
  kLc ++ kRc ++ zc.2.drop 32

/-- Modelled from the spec: `deriveChildNodePublic` (section 4.2.2).  Only
soft indices are allowed; the child key is `pk + zL8 * B` and the chaincode
the right half of the chaincode PRF output.  A parent key that fails to
decompress is a primitive failure (section 7). -/
def deriveChildNodePublic {Pt : Type} (ops : EdOps Pt) (xpk : List Nat)
    (index : Nat) (v : BIP32DerivationType) : Except XHDErr (List Nat) :=
  if 2147483648 ≤ index then .error .HardPublicDerivationForbidden
  else
    let pkb := xpk.take 32
    let zc := softPRF (xpk.drop 32) pkb index
    match ops.decompress pkb with
    | none => .error .PrimitiveFailure
    | some pt =>
        .ok (ops.compress (ops.add pt (ops.smulBase (zL8 (zc.1.take 32) v))) ++ zc.2.drop 32)

/-- The private path walk of `deriveKey` (section 4.2.3). -/
def walkPrivate {Pt : Type} (ops : EdOps Pt) (root : List Nat)
    (path : List Nat) (v : BIP32DerivationType) : List Nat :=
  path.foldl (fun x i => deriveChildNodePrivate ops x i v) root

/-- The public path walk of `deriveKey` (section 4.2.3), from an xpk. -/
def walkPublic {Pt : Type} (ops : EdOps Pt) (xpk : List Nat)
    (path : List Nat) (v : BIP32DerivationType) : Except XHDErr (List Nat) :=
  match path with
  | [] => .ok xpk
  | i :: rest =>
      match deriveChildNodePublic ops xpk i v with
      | .error e => .error e
      | .ok x => walkPublic ops x rest v

/-- Modelled from the spec: `deriveKey` (section 4.2.3).  A private walk
applies `deriveChildNodePrivate` at every level and yields the leaf xsk; a
public walk starts from the xpk of the root and descends with
`deriveChildNodePublic`. -/
def deriveKey {Pt : Type} (ops : EdOps Pt) (root : List Nat) (path : List Nat)
    (isPrivate : Bool) (v : BIP32DerivationType) : Except XHDErr (List Nat) :=
  if isPrivate then .ok (walkPrivate ops root path v)
  else walkPublic ops (xpkOf ops root) path v

/-- The canonical BIP44 path (section 3), first three levels hardened. -/
def bip44Path (ctx : KeyContext) (account change keyIndex : Nat) : List Nat :=
  [harden 44, harden (cointype ctx), harden account, change, keyIndex]

/-- Modelled from the spec: `keyGen` (section 4.2.4): private derivation of
the canonical path with change 0, then base-point multiplication. -/
def keyGen {Pt : Type} (ops : EdOps Pt) (root : List Nat) (ctx : KeyContext)
    (account keyIndex : Nat) (v : BIP32DerivationType) : List Nat :=
  pkOf ops (walkPrivate ops root (bip44Path ctx account 0 keyIndex) v)

/-- Modelled from the spec: the BIP32-Ed25519 signing equations (section
4.3.1).  `r = SHA-512(kR concat msg) mod L`, `R = r * B`,
`h = SHA-512(R concat pk concat msg) mod L`, `S = r + h * kL mod L`,
signature `R concat S`. -/
def sign {Pt : Type} (ops : EdOps Pt) (xsk msg : List Nat) : List Nat :=
  let kL := toNatLE (xsk.take 32)
  let kR := (xsk.drop 32).take 32
  let pkb := ops.compress (ops.smulBase kL)
  let r := toNatLE (sha512 (kR ++ msg)) % Ed25519.L
  let rb := ops.compress (ops.smulBase r)
  let h := toNatLE (sha512 (rb ++ pkb ++ msg)) % Ed25519.L
  rb ++ leBytes 32 ((r + h * kL) % Ed25519.L)

/-- Modelled from the spec: detached verification (section 4.3.3): check the
signature length and the canonical range of `S`, decompress `R` and the
public key, and compare `S * B` against `R + h * A` in compressed form. -/
def verifyWithPublicKey {Pt : Type} (ops : EdOps Pt) (sig msg pkb : List Nat) : Bool :=
  if sig.length ≠ 64 then false
  else
    let rb := sig.take 32
    let s := toNatLE (sig.drop 32)
    if Ed25519.L ≤ s then false
    else
      match ops.decompress rb, ops.decompress pkb with
      | some rp, some ap =>
          let h := toNatLE (sha512 (rb ++ pkb ++ msg)) % Ed25519.L
          ops.compress (ops.smulBase s) == ops.compress (ops.add rp (ops.smul h ap))
      | _, _ => false

/-- Modelled from the spec: `signAlgoTransaction` (section 4.3.1): derive
the leaf for the full path and sign the prefix-encoded bytes as they are. -/
def signAlgoTransaction {Pt : Type} (ops : EdOps Pt) (root : List Nat)
    (ctx : KeyContext) (account change keyIndex : Nat) (tx : List Nat)
    (v : BIP32DerivationType) : List Nat :=
  sign ops (walkPrivate ops root (bip44Path ctx account change keyIndex) v) tx

/-- Payload encodings of `SignMetadata` (section 3). -/
inductive Encoding where
  | none
  | base64
  | msgpack
  deriving DecidableEq

/-- The four Algorand domain-separation prefixes as ASCII bytes (section 6):
`TX`, `MX`, `Program` and `progData`. -/
def algorandTags : List (List Nat) :=
  [[84, 88], [77, 88], [80, 114, 111, 103, 114, 97, 109],
   [112, 114, 111, 103, 68, 97, 116, 97]]

/-- Whether the data begins with one of the four Algorand tags. -/
def hasAlgorandTag (data : List Nat) : Bool :=
  algorandTags.any (fun t => t.isPrefixOf data)

/-- Modelled from the spec: `signData` (section 4.3.2).  The pipeline checks
the outer bytes for consensus tags, decodes per the chosen encoding, checks
the decoded bytes again in the base64 case, validates the decoded value and
finally signs the original data bytes with the derived leaf key.  The
msgpack decoder and the JSON-schema validator are the specification's
external collaborators and are passed in as functions. -/
def signData {Pt : Type} (ops : EdOps Pt) (validator : List Nat → Bool)
    (msgpackDec : List Nat → Option (List Nat)) (root : List Nat)
    (ctx : KeyContext) (account change keyIndex : Nat) (data : List Nat)
    (enc : Encoding) (v : BIP32DerivationType) : Except XHDErr (List Nat) :=
  if hasAlgorandTag data then .error .DataIsTransactionLike
  else
    let leaf := walkPrivate ops root (bip44Path ctx account change keyIndex) v
    match enc with
    | .none =>
        if validator data then .ok (sign ops leaf data) else .error .InvalidSchema
    | .base64 =>
        match decodeBase64 data with
        | Option.none => .error .InvalidEncoding
        | Option.some dec =>
            if hasAlgorandTag dec then .error .DataIsTransactionLike
            else if validator dec then .ok (sign ops leaf data)
            else .error .InvalidSchema
    | .msgpack =>
        match msgpackDec data with
        | Option.none => .error .InvalidEncoding
        | Option.some dec =>
            if validator dec then .ok (sign ops leaf data)
            else .error .InvalidSchema

/-- The Ed25519-to-X25519 conversion primitives of section 4.4, external
collaborators of the core. -/
structure XConv where
  skToX : List Nat → List Nat
  pkToX : List Nat → List Nat
  x25519 : List Nat → List Nat → List Nat

/-- Modelled from the spec: `ECDH` (section 4.4.1).  Derive the leaf with
change 0, convert both identities to X25519, run the Diffie-Hellman, reject
an all-zero output, order the converted public keys by `meFirst` and hash
with BLAKE2b-256. -/
def ECDH {Pt : Type} (ops : EdOps Pt) (conv : XConv) (root : List Nat)
    (ctx : KeyContext) (account keyIndex : Nat) (otherPk : List Nat)
    (meFirst : Bool) (v : BIP32DerivationType) : Except XHDErr (List Nat) :=
  let leaf := walkPrivate ops root (bip44Path ctx account 0 keyIndex) v
  let pxSelf := conv.pkToX (pkOf ops leaf)
  let pxPeer := conv.pkToX otherPk
  let dh := conv.x25519 (conv.skToX (leaf.take 64)) pxPeer
  if dh == List.replicate 32 0 then .error .WeakPoint
  else .ok (blake2b 32 [] (dh ++ if meFirst then pxSelf ++ pxPeer else pxPeer ++ pxSelf))

end XHD

namespace XHD

/-! ### Concrete reference inputs -/

/-- The BIP39 seed of the reference mnemonic of the README ("salon zoo
engage ... slice" with an empty passphrase); the mnemonic-to-seed
conversion itself is out of scope for the library (section 1). -/
def refSeed : List Nat := [58, 255, 45, 180, 22, 184, 149, 236, 60, 249, 164, 248, 209, 233, 112, 188, 152, 25, 146, 14, 123, 244, 74, 94, 53, 4, 119, 175, 14, 245, 87, 177, 81, 27, 9, 134, 222, 191, 120, 221, 56, 199, 197, 32, 205, 68, 255, 124, 114, 49, 97, 143, 149, 142, 33, 239, 2, 80, 115, 58, 140, 25, 21, 234]

/-- The root extended key the README pins for the reference mnemonic. -/
def rootV : List Nat := [168, 186, 128, 2, 137, 34, 217, 252, 250, 5, 92, 120, 174, 222, 85, 181, 197, 117, 188, 216, 213, 165, 49, 104, 237, 244, 95, 54, 217, 236, 143, 70, 148, 89, 43, 75, 200, 146, 144, 117, 131, 226, 38, 105, 236, 223, 27, 4, 9, 169, 243, 189, 85, 73, 242, 221, 117, 27, 81, 54, 9, 9, 205, 5, 121, 107, 146, 6, 236, 48, 225, 66, 233, 75, 121, 10, 152, 128, 91, 249, 153, 4, 43, 85, 4, 105, 99, 23, 78, 230, 206, 226, 208, 55, 89, 70]

/-- A 64-byte seed whose root key sits close enough to the clamp boundary
for a hardened Peikert child to overflow into bit 5 of the top byte. -/
def seedC : List Nat := 66 :: List.replicate 63 0

/-- `fromSeed seedC`. -/
def rootC : List Nat := [192, 100, 200, 156, 144, 50, 179, 254, 227, 53, 255, 59, 177, 116, 82, 164, 138, 56, 43, 238, 127, 38, 14, 74, 202, 135, 4, 37, 122, 162, 107, 94, 31, 63, 48, 18, 164, 151, 11, 132, 132, 1, 198, 28, 160, 16, 66, 40, 181, 154, 29, 184, 157, 240, 190, 75, 13, 88, 171, 46, 62, 240, 25, 126, 118, 28, 11, 191, 88, 85, 238, 105, 245, 147, 232, 238, 143, 75, 223, 100, 61, 226, 224, 191, 113, 112, 5, 121, 235, 26, 132, 14, 81, 90, 92, 8]

/-- The hardened Peikert child of `rootC` at index `2 ^ 31`; its top scalar
byte is `0x61`, violating the clamp pattern. -/
def childC : List Nat := [152, 66, 78, 216, 126, 85, 169, 192, 12, 255, 25, 109, 199, 70, 144, 194, 110, 234, 165, 38, 71, 86, 28, 92, 83, 188, 228, 85, 161, 189, 130, 97, 212, 62, 40, 60, 244, 105, 152, 187, 216, 140, 157, 152, 223, 221, 72, 160, 0, 165, 54, 67, 86, 185, 92, 195, 247, 197, 45, 137, 161, 153, 4, 171, 182, 81, 115, 234, 240, 69, 45, 72, 138, 188, 131, 26, 201, 190, 13, 65, 106, 193, 168, 84, 32, 40, 161, 59, 255, 227, 43, 73, 177, 120, 228, 132]

/-- An extended key whose left scalar is the maximal 256-bit value: a
soft-derivation step from it necessarily wraps around `2 ^ 256`. -/
def xskFF : List Nat := List.replicate 32 255 ++ List.replicate 64 0

/-- The extended public key of `xskFF`. -/
def xpkFF : List Nat := [219, 39, 254, 75, 122, 75, 235, 140, 27, 140, 56, 162, 30, 148, 58, 133, 35, 4, 201, 187, 48, 53, 165, 243, 102, 38, 181, 17, 98, 166, 143, 156, 0, 0, 0, 0, 0, 0, 0, 0, 0, 0, 0, 0, 0, 0, 0, 0, 0, 0, 0, 0, 0, 0, 0, 0, 0, 0, 0, 0, 0, 0, 0, 0]

/-- The Khovratovich soft child of `xskFF` at index 0; its left scalar is
the wrapped-around sum `zL8 + kL - 2 ^ 256`. -/
def childFF : List Nat := [167, 84, 22, 102, 149, 221, 196, 201, 20, 60, 205, 68, 216, 60, 104, 249, 166, 241, 142, 115, 177, 2, 197, 218, 209, 123, 216, 118, 6, 0, 0, 0, 150, 232, 155, 188, 100, 131, 235, 213, 183, 176, 222, 184, 121, 8, 182, 189, 40, 1, 62, 230, 134, 19, 164, 205, 195, 157, 201, 6, 188, 65, 72, 182, 11, 253, 73, 194, 229, 221, 34, 23, 23, 222, 32, 44, 223, 251, 91, 194, 237, 154, 74, 98, 110, 58, 143, 83, 176, 115, 112, 204, 26, 4, 35, 40]

/-- The result of public child derivation from `xpkFF` at index 0. -/
def xpkPubFF : List Nat := [144, 98, 197, 63, 97, 63, 167, 173, 183, 24, 32, 147, 251, 167, 65, 56, 169, 101, 76, 192, 181, 110, 39, 32, 142, 215, 59, 229, 241, 214, 176, 71, 11, 253, 73, 194, 229, 221, 34, 23, 23, 222, 32, 44, 223, 251, 91, 194, 237, 154, 74, 98, 110, 58, 143, 83, 176, 115, 112, 204, 26, 4, 35, 40]

/-- The extended public key of `childFF`: it differs from `xpkPubFF` in the
key part because the private addition wrapped. -/
def xpkPrivFF : List Nat := [218, 243, 179, 73, 14, 96, 69, 77, 192, 222, 35, 202, 175, 145, 39, 42, 255, 122, 104, 193, 37, 166, 184, 247, 49, 96, 63, 55, 12, 73, 104, 88, 11, 253, 73, 194, 229, 221, 34, 23, 23, 222, 32, 44, 223, 251, 91, 194, 237, 154, 74, 98, 110, 58, 143, 83, 176, 115, 112, 204, 26, 4, 35, 40]

end XHD

namespace XHD

/-! ### Supporting lemmas -/

theorem land_mask_bottom (a : Nat) : a &&& 248 &&& 7 = 0 := by
  have h7 : (248 : Nat) &&& 7 = 0 := by decide
  rw [Nat.land_assoc, h7]
  simp

theorem clamp_top_byte : ∀ x < 128, x &&& 32 = 0 → (x ||| 64) &&& 224 = 64 := by decide

theorem beBytes_length (w n : Nat) : (beBytes w n).length = w := by
  simp [beBytes, leBytes_length]

theorem flatten_map_beBytes_length (l : List Nat) :
    ((l.map (beBytes 8)).flatten).length = 8 * l.length := by
  induction l with
  | nil => rfl
  | cons a t ih => simp [ih, beBytes_length]; ring

theorem flatten_map_leBytes_length (l : List Nat) :
    ((l.map (leBytes 8)).flatten).length = 8 * l.length := by
  induction l with
  | nil => rfl
  | cons a t ih => simp [ih, leBytes_length]; ring

theorem sha512Compress_length (hs block : List Nat) :
    (sha512Compress hs block).length = 8 := by
  unfold sha512Compress
  obtain ⟨a, b, c, dd, e, f, g, h⟩ :=
    (sha512K.zip ((sched512 64 (((chunk 8 block).map toNatBE).reverse)).reverse)).foldl step512
      (hs.getD 0 0, hs.getD 1 0, hs.getD 2 0, hs.getD 3 0,
       hs.getD 4 0, hs.getD 5 0, hs.getD 6 0, hs.getD 7 0)
  rfl

theorem foldl_sha512Compress_length (blocks : List (List Nat)) (hs : List Nat)
    (h : hs.length = 8) : (blocks.foldl sha512Compress hs).length = 8 := by
  induction blocks generalizing hs with
  | nil => exact h
  | cons b t ih => exact ih _ (sha512Compress_length _ _)

theorem sha512_length (msg : List Nat) : (sha512 msg).length = 64 := by
  unfold sha512
  rw [flatten_map_beBytes_length, foldl_sha512Compress_length _ _ (by rfl)]

theorem blakeCompress_length (h block : List Nat) (t : Nat) (last : Bool) :
    (blakeCompress h block t last).length = 8 := by
  rfl

theorem blakeBlocks_length (fuel : Nat) :
    ∀ (h : List Nat) (done : Nat) (rest : List Nat), h.length = 8 →
    (blakeBlocks fuel h done rest).length = 8 := by
  induction fuel with
  | zero => intro h done rest hh; exact hh
  | succ f ih =>
      intro h done rest hh
      unfold blakeBlocks
      by_cases hr : rest.length ≤ 128
      · simp [hr, blakeCompress_length]
      · simp [hr]; exact ih _ _ _ (blakeCompress_length _ _ _ _)

theorem blake2b_length (outLen : Nat) (key msg : List Nat) (h : outLen ≤ 64) :
    (blake2b outLen key msg).length = outLen := by
  unfold blake2b
  rw [List.length_take, flatten_map_leBytes_length,
    blakeBlocks_length _ _ _ _ (by rw [List.length_set]; rfl)]
  omega

theorem hasAlgorandTag_append (tag p : List Nat) (h : tag ∈ algorandTags) :
    hasAlgorandTag (tag ++ p) = true := by
  simp only [hasAlgorandTag, List.any_eq_true]
  exact ⟨tag, h, by rw [List.isPrefixOf_iff_prefix]; exact List.prefix_append tag p⟩

end XHD

namespace XHD

/-! ### Claim C7: fromSeed fails exactly on a set bit 5 -/

/-- C7: `fromSeed` fails with `UnusableSeed` exactly when bit 5 of byte 31 of
the left half of `SHA-512(seed)` is set (checked before clamping); on such a
seed no root key is returned, and on every other 64-byte seed this error is
not raised (it is the only error `fromSeed` can produce). -/
theorem C7_unusable_seed_iff (seed : List Nat) (_hlen : seed.length = 64) :
    (fromSeed seed = .error .UnusableSeed ↔
      ((sha512 seed).take 32).getD 31 0 &&& 32 ≠ 0)
    ∧ ∀ e, fromSeed seed = .error e → e = .UnusableSeed := by
  have hcollapse : ((sha512 seed).take 32).getD 31 0 = (sha512 seed)[31]?.getD 0 := by
    simp [List.getD_eq_getElem?_getD, List.getElem?_take]
  rw [hcollapse]
  by_cases hb : (sha512 seed)[31]?.getD 0 &&& 32 = 0
  · refine ⟨⟨fun h => ?_, fun hne => absurd hb hne⟩, fun e he => ?_⟩
    · simp [fromSeed, hb] at h
    · simp [fromSeed, hb] at he
  · refine ⟨⟨fun _ => hb, fun _ => ?_⟩, fun e he => ?_⟩
    · simp [fromSeed, hb]
    · simp [fromSeed, hb] at he
      exact he.symm

theorem C7_unusable_seed_iff_witness :
    fromSeed (List.replicate 64 0) = .error .UnusableSeed
    ∧ fromSeed refSeed ≠ .error .UnusableSeed := by
  constructor
  · exact (C7_unusable_seed_iff (List.replicate 64 0) (by decide)).1.mpr (by decide)
  · intro h
    exact absurd ((C7_unusable_seed_iff refSeed (by decide)).1.mp h) (by decide)

/-! ### Claim C8: public derivation rejects hardened indices -/

theorem walkPublic_hard_error {Pt : Type} (ops : EdOps Pt) (v : BIP32DerivationType) :
    ∀ (path : List Nat) (xpk : List Nat), (∃ i ∈ path, 2147483648 ≤ i) →
    ∃ e, walkPublic ops xpk path v = .error e := by
  intro path
  induction path with
  | nil => intro xpk h; simp at h
  | cons i rest ih =>
      intro xpk h
      by_cases hi : 2147483648 ≤ i
      · refine ⟨.HardPublicDerivationForbidden, ?_⟩
        simp [walkPublic, deriveChildNodePublic, hi]
      · obtain ⟨j, hj, hjge⟩ := h
        have hjr : j ∈ rest := by
          rcases List.mem_cons.mp hj with rfl | hm
          · exact absurd hjge hi
          · exact hm
        match h2 : deriveChildNodePublic ops xpk i v with
        | .error e => exact ⟨e, by simp [walkPublic, h2]⟩
        | .ok x =>
            obtain ⟨e, he⟩ := ih x ⟨j, hjr, hjge⟩
            exact ⟨e, by simp [walkPublic, h2, he]⟩

/-- C8: `deriveChildNodePublic` succeeds only for soft indices - any index
at or above `2 ^ 31` fails with `HardPublicDerivationForbidden` - and a
public path walk (`deriveKey` with `isPrivate = false`) fails whenever the
path contains a hardened index. -/
theorem C8_hard_public_forbidden :
    (∀ (Pt : Type) (ops : EdOps Pt) (xpk : List Nat) (i : Nat)
        (v : BIP32DerivationType), 2147483648 ≤ i →
        deriveChildNodePublic ops xpk i v = .error .HardPublicDerivationForbidden)
    ∧ ∀ (Pt : Type) (ops : EdOps Pt) (root path : List Nat)
        (v : BIP32DerivationType), (∃ i ∈ path, 2147483648 ≤ i) →
        ∃ e, deriveKey ops root path false v = .error e := by
  constructor
  · intro Pt ops xpk i v hi
    simp [deriveChildNodePublic, hi]
  · intro Pt ops root path v h
    exact walkPublic_hard_error ops v path (xpkOf ops root) h

theorem C8_hard_public_forbidden_witness :
    deriveChildNodePublic toyOps (List.replicate 64 0) 2147483648 .Peikert
      = .error .HardPublicDerivationForbidden
    ∧ ∃ e, deriveKey toyOps rootV [0, 2147483648] false .Peikert = .error e :=
  ⟨C8_hard_public_forbidden.1 Nat toyOps (List.replicate 64 0) 2147483648 .Peikert (by decide),
   C8_hard_public_forbidden.2 Nat toyOps rootV [0, 2147483648] .Peikert
     ⟨2147483648, by decide, by decide⟩⟩

/-! ### Claim C4: signData rejects transaction-like data -/

/-- C4: for every Algorand tag and payload, `signData` on data beginning
with the tag fails with `DataIsTransactionLike` - both when the tag
prefixes the outer bytes (under any encoding) and when the encoding is
base64 and the tag prefixes the decoded bytes - and no signature is
produced in either case. -/
theorem C4_tag_rejection (Pt : Type) (ops : EdOps Pt) (validator : List Nat → Bool)
    (msgpackDec : List Nat → Option (List Nat)) (root : List Nat) (ctx : KeyContext)
    (account change keyIndex : Nat) (v : BIP32DerivationType)
    (tag p data : List Nat) (enc : Encoding) (htag : tag ∈ algorandTags) :
    (data = tag ++ p →
      signData ops validator msgpackDec root ctx account change keyIndex data enc v
        = .error .DataIsTransactionLike)
    ∧ (enc = .base64 → decodeBase64 data = some (tag ++ p) →
      signData ops validator msgpackDec root ctx account change keyIndex data enc v
        = .error .DataIsTransactionLike) := by
  constructor
  · intro hdata
    subst hdata
    simp [signData, hasAlgorandTag_append tag p htag]
  · intro henc hdec
    subst henc
    by_cases houter : hasAlgorandTag data
    · simp [signData, houter]
    · simp [signData, houter, hdec, hasAlgorandTag_append tag p htag]

theorem C4_tag_rejection_witness :
    signData toyOps (fun _ => true) (fun _ => none) rootV .Address 0 0 0
      ([84, 88] ++ [1]) .none .Peikert = .error .DataIsTransactionLike
    ∧ signData toyOps (fun _ => true) (fun _ => none) rootV .Address 0 0 0
      [86, 70, 103, 61] .base64 .Peikert = .error .DataIsTransactionLike :=
  ⟨(C4_tag_rejection Nat toyOps (fun _ => true) (fun _ => none) rootV .Address 0 0 0
      .Peikert [84, 88] [1] ([84, 88] ++ [1]) .none (by decide)).1 rfl,
   (C4_tag_rejection Nat toyOps (fun _ => true) (fun _ => none) rootV .Address 0 0 0
      .Peikert [84, 88] [] [86, 70, 103, 61] .base64 (by decide)).2 rfl (by decide)⟩

end XHD

namespace XHD

/-! ### Claim C2: fromSeed structure and the reference root vector -/

/-- C2 counterexample: the reference root key (pinned in the README and
reproduced by `fromSeed`) does not carry a BLAKE2b-256 chaincode - the
claim's chaincode formula contradicts its own pinned vector. -/
theorem C2_counterexample :
    fromSeed refSeed = .ok rootV ∧ rootV.drop 64 ≠ blake2b 32 [] (1 :: refSeed) :=
  ⟨by decide, by decide⟩

/-- C2 (amended): for every 64-byte seed whose SHA-512 image has bit 5 of
byte 31 of the left half clear, `fromSeed` returns the clamped left half,
the right half, and the chaincode `SHA-256(0x01 concat seed)` (the claim
said BLAKE2b-256; the pinned root vector forces SHA-256); in particular on
the reference seed it returns exactly the pinned root key. -/
theorem C2_fromSeed (seed : List Nat) (_hlen : seed.length = 64)
    (hbit : ((sha512 seed).take 32).getD 31 0 &&& 32 = 0) :
    fromSeed seed = .ok
      ((((sha512 seed).take 32).set 0 (((sha512 seed).take 32).getD 0 0 &&& 248)).set 31
          (((sha512 seed).take 32).getD 31 0 &&& 127 ||| 64)
        ++ ((sha512 seed).drop 32).take 32 ++ sha256 (1 :: seed))
    ∧ fromSeed refSeed = .ok rootV := by
  refine ⟨?_, by decide⟩
  simp only [fromSeed]
  rw [if_neg (fun hc => hc hbit)]

theorem C2_fromSeed_witness :
    ((sha512 refSeed).take 32).getD 31 0 &&& 32 = 0 ∧ fromSeed refSeed = .ok rootV :=
  ⟨by decide, (C2_fromSeed refSeed (by decide) (by decide)).2⟩

/-! ### Claim C3: clamp preservation -/

/-- C3 counterexample: `seedC` is usable, its root is clamped, but the
hardened Peikert child of the root at index `2 ^ 31` violates the clamp
predicate (its top scalar byte is `0x61`). -/
theorem C3_clamp_counterexample :
    fromSeed seedC = .ok rootC ∧ clamped rootC = true
    ∧ clamped (deriveChildNodePrivate realOps rootC 2147483648 .Peikert) = false := by
  refine ⟨by decide, by decide, ?_⟩
  have h : deriveChildNodePrivate realOps rootC 2147483648 .Peikert = childC := by decide
  rw [h]
  decide

theorem clamped_clampBytes (kL rest : List Nat) (hlen : kL.length = 32)
    (hbit : kL.getD 31 0 &&& 32 = 0) :
    clamped ((kL.set 0 (kL.getD 0 0 &&& 248)).set 31 (kL.getD 31 0 &&& 127 ||| 64)
      ++ rest) = true := by
  have hlen2 : ((kL.set 0 (kL.getD 0 0 &&& 248)).set 31
      (kL.getD 31 0 &&& 127 ||| 64)).length = 32 := by simp [hlen]
  unfold clamped
  rw [List.getD_append _ _ 0 0 (by simp [hlen]), List.getD_append _ _ 0 31 (by simp [hlen])]
  have hget0 : ((kL.set 0 (kL.getD 0 0 &&& 248)).set 31
      (kL.getD 31 0 &&& 127 ||| 64)).getD 0 0 = kL.getD 0 0 &&& 248 := by
    simp [List.getD_eq_getElem?_getD, List.getElem?_set_ne, List.getElem?_set_self,
      show (0 : Nat) < kL.length by omega]
  have hget31 : ((kL.set 0 (kL.getD 0 0 &&& 248)).set 31
      (kL.getD 31 0 &&& 127 ||| 64)).getD 31 0 = kL.getD 31 0 &&& 127 ||| 64 := by
    simp [List.getD_eq_getElem?_getD, List.getElem?_set_self, List.length_set, hlen]
  rw [hget0, hget31, land_mask_bottom]
  have h127 : (127 : Nat) &&& 32 = 32 := by decide
  have h32 : kL.getD 31 0 &&& 127 &&& 32 = 0 := by
    rw [Nat.land_assoc, h127]
    exact hbit
  have hlt : kL.getD 31 0 &&& 127 < 128 := lt_of_le_of_lt Nat.and_le_right (by norm_num)
  rw [clamp_top_byte _ hlt h32]
  rfl

/-- C3 (amended): the clamp predicate holds of every root key `fromSeed`
returns, and child derivation preserves the divisibility-by-8 of the left
scalar; the top-byte clamp pattern is a property of the root only and can be
violated by children (see the counterexample), contrary to the claim. -/
theorem C3_clamp :
    (∀ seed : List Nat, seed.length = 64 →
      ∀ x, fromSeed seed = .ok x → clamped x = true)
    ∧ ∀ (Pt : Type) (ops : EdOps Pt) (xsk : List Nat) (i : Nat)
        (v : BIP32DerivationType), toNatLE (xsk.take 32) % 8 = 0 →
        toNatLE ((deriveChildNodePrivate ops xsk i v).take 32) % 8 = 0 := by
  constructor
  · intro seed _hlen x hx
    have hlen32 : ((sha512 seed).take 32).length = 32 := by
      simp [sha512_length]
    by_cases hb : ((sha512 seed).take 32).getD 31 0 &&& 32 = 0
    · rw [(C2_fromSeed seed _hlen hb).1] at hx
      obtain rfl : _ = x := Except.ok.inj hx
      rw [List.append_assoc]
      exact clamped_clampBytes _ _ hlen32 hb
    · have hcollapse : ((sha512 seed).take 32).getD 31 0 = (sha512 seed)[31]?.getD 0 := by
        simp [List.getD_eq_getElem?_getD, List.getElem?_take]
      rw [hcollapse] at hb
      simp [fromSeed, hb] at hx
  · intro Pt ops xsk i v h8
    unfold deriveChildNodePrivate
    rw [List.append_assoc, List.take_left' (leBytes_length 32 _), toNatLE_leBytes]
    have hpow : (256 : Nat) ^ 32 = 2 ^ 256 := by norm_num
    rw [hpow, Nat.mod_mod_of_dvd _ (by norm_num), Nat.mod_mod_of_dvd _ (by norm_num)]
    have hz : zL8 ((if i < 2147483648 then
        softPRF (xsk.drop 64) (pkOf ops xsk) i
      else hardPRF (xsk.drop 64) (xsk.take 32) ((xsk.drop 32).take 32) i).1.take 32) v % 8
        = 0 := by
      cases v <;> simp [zL8, Nat.mul_mod_left]
    omega

theorem C3_clamp_witness :
    clamped rootV = true
    ∧ toNatLE ((deriveChildNodePrivate realOps rootV 2147483648 .Peikert).take 32) % 8
        = 0 :=
  ⟨C3_clamp.1 refSeed (by decide) rootV (by decide),
   C3_clamp.2 Ed25519.Pt realOps rootV 2147483648 .Peikert (by decide)⟩

end XHD

namespace XHD

/-! ### Claim C5: sign and verify round-trip -/

theorem verify_sig_ok (Pt : Type) (ops : EdOps Pt) (hf : OpsFaithful ops)
    (msg : List Nat) (r kL : Nat) :
    verifyWithPublicKey ops
      (ops.compress (ops.smulBase r)
        ++ leBytes 32 ((r
          + toNatLE (sha512 (ops.compress (ops.smulBase r)
              ++ ops.compress (ops.smulBase kL) ++ msg)) % Ed25519.L * kL) % Ed25519.L))
      msg (ops.compress (ops.smulBase kL)) = true := by
  have hLpos : 0 < Ed25519.L := by decide
  set h := toNatLE (sha512 (ops.compress (ops.smulBase r)
    ++ ops.compress (ops.smulBase kL) ++ msg)) % Ed25519.L with hh
  set s := (r + h * kL) % Ed25519.L with hs
  have hsL : s < Ed25519.L := Nat.mod_lt _ hLpos
  simp only [verifyWithPublicKey]
  rw [List.take_left' (hf.compressLen _), List.drop_left' (hf.compressLen _),
    toNatLE_leBytes]
  have hs256 : s % 256 ^ 32 = s := by
    refine Nat.mod_eq_of_lt (lt_trans hsL ?_)
    norm_num [Ed25519.L]
  rw [hs256]
  rw [if_neg (fun hc => hc (by simp [hf.compressLen, leBytes_length]))]
  rw [if_neg (Nat.not_le.mpr hsL)]
  rw [hf.roundtrip r, hf.roundtrip kL]
  simp only [hf.mulBase]
  rw [← hf.addBase]
  rw [hs, hf.modBase, hh, List.append_assoc]
  simp

/-- C5: a signature produced by the modelled BIP32-Ed25519 signing (the
routine used by `signAlgoTransaction` and by a `signData` call that passes
its safety checks, which signs the original data bytes) verifies against
the message and `pk = kL * B` under any faithful curve provider. -/
theorem C5_sign_verify (Pt : Type) (ops : EdOps Pt) (hf : OpsFaithful ops)
    (msg xsk : List Nat) :
    verifyWithPublicKey ops (sign ops xsk msg) msg (pkOf ops xsk) = true := by
  simp only [sign, pkOf]
  exact verify_sig_ok Pt ops hf msg _ _

theorem C5_sign_verify_witness :
    verifyWithPublicKey toyOps (sign toyOps rootV [1, 2, 3]) [1, 2, 3]
      (pkOf toyOps rootV) = true :=
  C5_sign_verify Nat toyOps toyOps_faithful [1, 2, 3] rootV

end XHD

namespace XHD

/-- A commutative stand-in for the X25519 conversion primitives, used to
instantiate the symmetry theorem on concrete inputs. -/
def toyConv : XConv where
  skToX b := b.take 32
  pkToX b := b
  x25519 a b := leBytes 32 (toNatLE a * toNatLE b % Ed25519.L)

end XHD

namespace XHD

/-! ### Claim C6: ECDH symmetry -/

/-- C6: two parties with leaf keys derived at the same context, account and
key index obtain identical 32-byte shared secrets when using opposite
`meFirst` values; the hypothesis is the commutativity of the external X25519
Diffie-Hellman primitive on the two converted key pairs, which is the
defining property of the black-box exchanged primitive. -/
theorem C6_ecdh_symmetry (Pt : Type) (ops : EdOps Pt) (conv : XConv)
    (rootA rootB : List Nat) (ctx : KeyContext) (account keyIndex : Nat)
    (v : BIP32DerivationType)
    (hcomm :
      conv.x25519
        (conv.skToX ((walkPrivate ops rootA (bip44Path ctx account 0 keyIndex) v).take 64))
        (conv.pkToX (pkOf ops (walkPrivate ops rootB (bip44Path ctx account 0 keyIndex) v)))
      = conv.x25519
        (conv.skToX ((walkPrivate ops rootB (bip44Path ctx account 0 keyIndex) v).take 64))
        (conv.pkToX (pkOf ops (walkPrivate ops rootA (bip44Path ctx account 0 keyIndex) v)))) :
    ECDH ops conv rootA ctx account keyIndex
        (pkOf ops (walkPrivate ops rootB (bip44Path ctx account 0 keyIndex) v)) true v
      = ECDH ops conv rootB ctx account keyIndex
        (pkOf ops (walkPrivate ops rootA (bip44Path ctx account 0 keyIndex) v)) false v
    ∧ ∀ res, ECDH ops conv rootA ctx account keyIndex
        (pkOf ops (walkPrivate ops rootB (bip44Path ctx account 0 keyIndex) v)) true v
        = .ok res → res.length = 32 := by
  constructor
  · simp only [ECDH]
    rw [hcomm]
    simp
  · intro res hres
    simp only [ECDH] at hres
    split at hres
    · exact absurd hres (by simp)
    · obtain rfl := (Except.ok.inj hres).symm
      exact blake2b_length 32 _ _ (by norm_num)

/-- Stage 1 of the toy `walkPrivate` from `rootV`. -/
def c6A1 : List Nat := [104, 23, 137, 143, 79, 28, 43, 63, 29, 2, 136, 221, 115, 222, 12, 13, 222, 141, 247, 64, 106, 40, 136, 157, 75, 241, 55, 48, 248, 79, 9, 72, 149, 152, 202, 82, 140, 229, 57, 207, 177, 79, 166, 114, 156, 16, 222, 30, 190, 99, 117, 185, 91, 116, 166, 228, 163, 205, 214, 20, 64, 1, 32, 175, 71, 184, 7, 82, 82, 140, 223, 54, 90, 183, 54, 97, 251, 124, 224, 233, 30, 113, 40, 8, 178, 239, 81, 33, 139, 93, 139, 109, 96, 50, 134, 164]
/-- Stage 2 of the toy `walkPrivate` from `rootV`. -/
def c6A2 : List Nat := [120, 47, 7, 23, 191, 203, 125, 130, 153, 236, 124, 100, 125, 49, 146, 124, 21, 216, 79, 238, 138, 193, 235, 129, 252, 58, 71, 245, 127, 127, 101, 73, 113, 6, 45, 215, 190, 232, 80, 65, 161, 99, 249, 169, 192, 96, 44, 232, 151, 84, 10, 159, 246, 190, 12, 239, 47, 165, 191, 104, 118, 227, 34, 187, 30, 76, 214, 154, 124, 241, 46, 80, 72, 116, 39, 0, 200, 32, 116, 159, 97, 110, 225, 146, 153, 0, 192, 120, 213, 67, 98, 199, 126, 164, 237, 95]
/-- Stage 3 of the toy `walkPrivate` from `rootV`. -/
def c6A3 : List Nat := [24, 131, 110, 156, 141, 189, 169, 53, 115, 25, 251, 233, 102, 53, 76, 149, 146, 214, 233, 200, 208, 4, 12, 7, 38, 129, 188, 87, 17, 107, 192, 75, 46, 185, 76, 4, 58, 7, 145, 142, 246, 223, 133, 187, 39, 79, 57, 50, 214, 216, 151, 253, 43, 26, 98, 128, 31, 2, 133, 52, 205, 250, 133, 97, 64, 160, 219, 85, 175, 154, 195, 207, 72, 242, 5, 223, 28, 231, 106, 151, 162, 183, 87, 119, 138, 192, 183, 8, 121, 93, 25, 206, 2, 42, 65, 167]
/-- Stage 4 of the toy `walkPrivate` from `rootV`. -/
def c6A4 : List Nat := [248, 182, 148, 109, 96, 44, 168, 82, 76, 22, 250, 57, 249, 34, 58, 66, 152, 87, 124, 197, 41, 225, 124, 127, 163, 125, 246, 244, 172, 216, 200, 75, 229, 31, 16, 178, 178, 206, 47, 95, 30, 33, 142, 78, 191, 119, 235, 37, 119, 251, 210, 28, 253, 185, 128, 168, 208, 82, 75, 249, 249, 230, 70, 92, 195, 156, 203, 80, 154, 219, 117, 157, 200, 93, 205, 143, 210, 27, 202, 168, 119, 140, 219, 199, 249, 127, 218, 137, 198, 225, 85, 238, 68, 236, 12, 79]
/-- Stage 5 of the toy `walkPrivate` from `rootV`. -/
def c6A5 : List Nat := [112, 12, 161, 240, 8, 234, 196, 161, 143, 192, 11, 95, 209, 75, 49, 128, 136, 118, 198, 158, 99, 124, 209, 47, 120, 157, 234, 148, 255, 92, 195, 77, 69, 222, 74, 99, 202, 230, 54, 198, 143, 31, 34, 169, 158, 210, 71, 255, 60, 192, 33, 6, 52, 198, 199, 120, 190, 141, 169, 152, 128, 253, 243, 37, 15, 99, 150, 199, 121, 214, 21, 196, 121, 79, 94, 233, 44, 238, 17, 126, 117, 53, 5, 221, 123, 102, 183, 92, 64, 42, 84, 149, 208, 243, 44, 141]
/-- Stage 1 of the toy `walkPrivate` from `rootC`. -/
def c6B1 : List Nat := [64, 206, 44, 218, 94, 238, 171, 97, 77, 218, 144, 44, 50, 180, 234, 134, 229, 168, 10, 35, 121, 221, 27, 38, 221, 141, 81, 250, 206, 183, 214, 96, 6, 246, 241, 139, 18, 8, 18, 90, 155, 29, 4, 217, 190, 178, 126, 134, 138, 219, 10, 151, 246, 59, 35, 199, 116, 19, 63, 103, 242, 66, 237, 42, 203, 152, 47, 57, 172, 155, 72, 126, 103, 12, 75, 196, 225, 28, 218, 87, 73, 178, 220, 65, 164, 206, 254, 21, 174, 133, 132, 27, 118, 11, 185, 151]
/-- Stage 2 of the toy `walkPrivate` from `rootC`. -/
def c6B2 : List Nat := [120, 106, 149, 238, 88, 163, 183, 84, 196, 232, 75, 180, 88, 100, 7, 76, 74, 62, 122, 156, 153, 234, 103, 12, 247, 57, 46, 92, 159, 106, 119, 97, 32, 31, 5, 138, 236, 20, 233, 7, 222, 65, 142, 81, 194, 9, 120, 226, 37, 139, 156, 138, 149, 143, 222, 135, 194, 173, 223, 204, 108, 188, 144, 27, 91, 113, 149, 121, 44, 208, 161, 222, 83, 100, 16, 169, 195, 245, 114, 154, 31, 224, 15, 144, 49, 116, 68, 99, 60, 19, 252, 153, 208, 95, 139, 214]
/-- Stage 3 of the toy `walkPrivate` from `rootC`. -/
def c6B3 : List Nat := [24, 120, 43, 62, 244, 96, 84, 14, 36, 156, 193, 195, 219, 14, 209, 140, 220, 96, 124, 125, 173, 138, 102, 236, 107, 78, 20, 121, 32, 101, 199, 99, 101, 54, 230, 38, 158, 236, 168, 188, 253, 225, 169, 199, 175, 58, 112, 139, 67, 102, 134, 123, 233, 131, 88, 214, 216, 25, 131, 220, 125, 76, 28, 10, 150, 175, 56, 232, 226, 95, 52, 12, 98, 118, 186, 133, 130, 81, 53, 91, 9, 154, 0, 228, 191, 227, 56, 53, 198, 67, 134, 34, 194, 231, 139, 249]
/-- Stage 4 of the toy `walkPrivate` from `rootC`. -/
def c6B4 : List Nat := [104, 204, 248, 219, 2, 146, 218, 41, 224, 158, 84, 36, 179, 9, 115, 244, 82, 243, 177, 237, 8, 149, 179, 206, 234, 171, 79, 99, 157, 249, 112, 102, 145, 251, 4, 138, 167, 98, 219, 75, 86, 226, 142, 59, 16, 194, 80, 235, 236, 109, 108, 183, 87, 197, 233, 192, 173, 211, 34, 64, 101, 3, 173, 102, 213, 201, 171, 71, 186, 70, 217, 123, 198, 77, 69, 126, 55, 230, 145, 110, 229, 97, 100, 34, 82, 60, 168, 142, 50, 103, 67, 204, 164, 82, 74, 191]
/-- Stage 5 of the toy `walkPrivate` from `rootC`. -/
def c6B5 : List Nat := [168, 219, 26, 152, 166, 232, 49, 73, 147, 96, 149, 72, 255, 250, 28, 79, 211, 179, 55, 92, 246, 52, 87, 235, 205, 205, 25, 170, 100, 125, 20, 103, 167, 175, 26, 105, 45, 98, 123, 139, 27, 43, 222, 228, 105, 141, 181, 112, 21, 98, 221, 50, 1, 102, 22, 186, 113, 5, 178, 117, 10, 76, 14, 156, 179, 9, 211, 37, 26, 141, 82, 203, 46, 233, 244, 75, 5, 108, 228, 122, 214, 42, 60, 196, 249, 20, 1, 103, 97, 81, 155, 237, 186, 190, 235, 248]

theorem c6_stepA1 : deriveChildNodePrivate toyOps rootV (harden 44) .Peikert = c6A1 := by
  decide

theorem c6_stepA2 : deriveChildNodePrivate toyOps c6A1 (harden (cointype .Identity)) .Peikert = c6A2 := by
  decide

theorem c6_stepA3 : deriveChildNodePrivate toyOps c6A2 (harden 0) .Peikert = c6A3 := by
  decide

theorem c6_stepA4 : deriveChildNodePrivate toyOps c6A3 0 .Peikert = c6A4 := by
  decide

theorem c6_stepA5 : deriveChildNodePrivate toyOps c6A4 0 .Peikert = c6A5 := by
  decide

theorem c6_stepB1 : deriveChildNodePrivate toyOps rootC (harden 44) .Peikert = c6B1 := by
  decide

theorem c6_stepB2 : deriveChildNodePrivate toyOps c6B1 (harden (cointype .Identity)) .Peikert = c6B2 := by
  decide

theorem c6_stepB3 : deriveChildNodePrivate toyOps c6B2 (harden 0) .Peikert = c6B3 := by
  decide

theorem c6_stepB4 : deriveChildNodePrivate toyOps c6B3 0 .Peikert = c6B4 := by
  decide

theorem c6_stepB5 : deriveChildNodePrivate toyOps c6B4 0 .Peikert = c6B5 := by
  decide

theorem c6_walkA : walkPrivate toyOps rootV (bip44Path .Identity 0 0 0) .Peikert = c6A5 := by
  simp only [walkPrivate, bip44Path, List.foldl_cons, List.foldl_nil,
    c6_stepA1, c6_stepA2, c6_stepA3, c6_stepA4, c6_stepA5]

theorem c6_walkB : walkPrivate toyOps rootC (bip44Path .Identity 0 0 0) .Peikert = c6B5 := by
  simp only [walkPrivate, bip44Path, List.foldl_cons, List.foldl_nil,
    c6_stepB1, c6_stepB2, c6_stepB3, c6_stepB4, c6_stepB5]

theorem c6_comm :
    toyConv.x25519
        (toyConv.skToX ((walkPrivate toyOps rootV (bip44Path .Identity 0 0 0) .Peikert).take 64))
        (toyConv.pkToX (pkOf toyOps (walkPrivate toyOps rootC (bip44Path .Identity 0 0 0) .Peikert)))
      = toyConv.x25519
        (toyConv.skToX ((walkPrivate toyOps rootC (bip44Path .Identity 0 0 0) .Peikert).take 64))
        (toyConv.pkToX (pkOf toyOps (walkPrivate toyOps rootV (bip44Path .Identity 0 0 0) .Peikert))) := by
  rw [c6_walkA, c6_walkB]
  decide

theorem C6_ecdh_symmetry_witness :
    ECDH toyOps toyConv rootV .Identity 0 0
        (pkOf toyOps (walkPrivate toyOps rootC (bip44Path .Identity 0 0 0) .Peikert))
        true .Peikert
      = ECDH toyOps toyConv rootC .Identity 0 0
        (pkOf toyOps (walkPrivate toyOps rootV (bip44Path .Identity 0 0 0) .Peikert))
        false .Peikert :=
  (C6_ecdh_symmetry Nat toyOps toyConv rootV rootC .Identity 0 0 .Peikert c6_comm).1

end XHD

namespace XHD

/-! ### Claim C1: public and private derivation agree on soft indices -/

/-- The side condition of a soft derivation step: the index is soft and the
child left-scalar addition `kL + zL8` stays below `2 ^ 256`, so the mod-2^256
little-endian addition of `deriveChildNodePrivate` does not wrap.  For a
clamped parent (`kL < 2 ^ 255`) and the Khovratovich variant
(`zL8 < 2 ^ 227`) this always holds. -/
def softOk {Pt : Type} (ops : EdOps Pt) (xsk : List Nat) (i : Nat)
    (v : BIP32DerivationType) : Bool :=
  Nat.blt i 2147483648 &&
  Nat.blt (toNatLE (xsk.take 32)
    + zL8 (((softPRF (xsk.drop 64) (pkOf ops xsk) i).1).take 32) v) (2 ^ 256)

/-- The side condition along a whole private walk. -/
def walkOk {Pt : Type} (ops : EdOps Pt) (xsk : List Nat) (path : List Nat)
    (v : BIP32DerivationType) : Bool :=
  match path with
  | [] => true
  | i :: rest =>
      softOk ops xsk i v && walkOk ops (deriveChildNodePrivate ops xsk i v) rest v

theorem take_drop_triple (a b c : List Nat) (ha : a.length = 32)
    (hb : b.length = 32) :
    (a ++ b ++ c).take 32 = a ∧ (a ++ b ++ c).drop 64 = c := by
  constructor
  · rw [List.append_assoc, List.take_left' ha]
  · rw [List.append_assoc, show (64 : Nat) = 32 + 32 from rfl, ← List.drop_drop,
      List.drop_left' ha, List.drop_left' hb]

theorem deriveChildNodePublic_private_agree (Pt : Type) (ops : EdOps Pt)
    (hf : OpsFaithful ops) (xsk : List Nat) (i : Nat) (v : BIP32DerivationType)
    (hok : softOk ops xsk i v = true) :
    deriveChildNodePublic ops (xpkOf ops xsk) i v
      = .ok (xpkOf ops (deriveChildNodePrivate ops xsk i v)) := by
  have hok2 : i < 2147483648 ∧ toNatLE (xsk.take 32)
      + zL8 (((softPRF (xsk.drop 64) (pkOf ops xsk) i).1).take 32) v < 2 ^ 256 := by
    simpa [softOk, Nat.blt_eq, Bool.and_eq_true] using hok
  obtain ⟨hi, hov⟩ := hok2
  have htake : (xpkOf ops xsk).take 32 = pkOf ops xsk :=
    List.take_left' (hf.compressLen _)
  have hdrop : (xpkOf ops xsk).drop 32 = xsk.drop 64 :=
    List.drop_left' (hf.compressLen _)
  have hchild := take_drop_triple
    (leBytes 32 ((toNatLE (xsk.take 32)
      + zL8 (((softPRF (xsk.drop 64) (pkOf ops xsk) i).1).take 32) v) % 2 ^ 256))
    (leBytes 32 ((toNatLE ((xsk.drop 32).take 32)
      + toNatLE ((softPRF (xsk.drop 64) (pkOf ops xsk) i).1.drop 32)) % 2 ^ 256))
    ((softPRF (xsk.drop 64) (pkOf ops xsk) i).2.drop 32)
    (leBytes_length _ _) (leBytes_length _ _)
  simp only [deriveChildNodePublic, if_neg (Nat.not_le.mpr hi)]
  rw [htake, hdrop]
  have hrt : ops.decompress (pkOf ops xsk) = some (ops.smulBase (toNatLE (xsk.take 32))) := by
    simpa [pkOf] using hf.roundtrip (toNatLE (xsk.take 32))
  rw [hrt]
  simp only [deriveChildNodePrivate, if_pos hi, xpkOf, pkOf]
  simp only [pkOf] at hchild hov
  rw [hchild.1, hchild.2, toNatLE_leBytes,
    show (256 : Nat) ^ 32 = 2 ^ 256 by norm_num, Nat.mod_mod_of_dvd _ dvd_rfl,
    Nat.mod_eq_of_lt hov, hf.addBase]

theorem walkPublic_private_agree (Pt : Type) (ops : EdOps Pt)
    (hf : OpsFaithful ops) (v : BIP32DerivationType) :
    ∀ (path : List Nat) (xsk : List Nat), walkOk ops xsk path v = true →
      walkPublic ops (xpkOf ops xsk) path v
        = .ok (xpkOf ops (walkPrivate ops xsk path v)) := by
  intro path
  induction path with
  | nil => intro xsk _; simp [walkPublic, walkPrivate]
  | cons i rest ih =>
      intro xsk h
      obtain ⟨h1, h2⟩ : softOk ops xsk i v = true
          ∧ walkOk ops (deriveChildNodePrivate ops xsk i v) rest v = true := by
        simpa [walkOk, Bool.and_eq_true] using h
      simp only [walkPublic, walkPrivate, List.foldl_cons]
      rw [deriveChildNodePublic_private_agree Pt ops hf xsk i v h1]
      simpa [walkPrivate] using ih (deriveChildNodePrivate ops xsk i v) h2

/-- C1 (amended): public child derivation from the extended public key
agrees with private child derivation for every soft index, PROVIDED the
child left-scalar addition does not wrap around `2 ^ 256` (`softOk`); the
claim as stated omits this side condition and fails on extended keys whose
left scalar is large enough to wrap (see the counterexample).  Consequently
a public `deriveKey` walk over a path satisfying the condition at every
level returns the extended public key of the private leaf, whose first 32
bytes are `kL_leaf * B`. -/
theorem C1_pub_priv_agreement (Pt : Type) (ops : EdOps Pt) (hf : OpsFaithful ops) :
    (∀ (xsk : List Nat) (i : Nat) (v : BIP32DerivationType),
      softOk ops xsk i v = true →
      deriveChildNodePublic ops (xpkOf ops xsk) i v
        = .ok (xpkOf ops (deriveChildNodePrivate ops xsk i v)))
    ∧ ∀ (root path : List Nat) (v : BIP32DerivationType),
      walkOk ops root path v = true →
      deriveKey ops root path false v
        = .ok (xpkOf ops (walkPrivate ops root path v)) := by
  constructor
  · exact fun xsk i v hok => deriveChildNodePublic_private_agree Pt ops hf xsk i v hok
  · intro root path v hok
    simp only [deriveKey, Bool.false_eq_true, if_false]
    exact walkPublic_private_agree Pt ops hf v path root hok

theorem C1_pub_priv_agreement_witness :
    (softOk toyOps rootV 0 .Peikert = true
      ∧ deriveChildNodePublic toyOps (xpkOf toyOps rootV) 0 .Peikert
          = .ok (xpkOf toyOps (deriveChildNodePrivate toyOps rootV 0 .Peikert)))
    ∧ walkOk toyOps rootV [0, 1] .Peikert = true
      ∧ deriveKey toyOps rootV [0, 1] false .Peikert
          = .ok (xpkOf toyOps (walkPrivate toyOps rootV [0, 1] .Peikert)) :=
  ⟨⟨by decide,
    (C1_pub_priv_agreement Nat toyOps toyOps_faithful).1 rootV 0 .Peikert (by decide)⟩,
   by decide,
   (C1_pub_priv_agreement Nat toyOps toyOps_faithful).2 rootV [0, 1] .Peikert (by decide)⟩

/-- C1 counterexample: on the (unclamped) extended key `xskFF`, whose left
scalar is `2 ^ 256 - 1`, the Khovratovich soft child at index 0 wraps around
`2 ^ 256`, and public derivation from the extended public key disagrees with
the extended public key of the private child - so the claim, quantified over
every extended secret key with no overflow condition, is false. -/
theorem C1_counterexample :
    deriveChildNodePublic realOps (xpkOf realOps xskFF) 0 .Khovratovich
      ≠ .ok (xpkOf realOps (deriveChildNodePrivate realOps xskFF 0 .Khovratovich)) := by
  have h1 : xpkOf realOps xskFF = xpkFF := by decide
  have h2 : deriveChildNodePublic realOps xpkFF 0 .Khovratovich = .ok xpkPubFF := by
    decide
  have h3 : deriveChildNodePrivate realOps xskFF 0 .Khovratovich = childFF := by decide
  have h4 : xpkOf realOps childFF = xpkPrivFF := by decide
  rw [h1, h2, h3, h4]
  decide

end XHD
